import Mathlib

/-!
# ARP spoofing engine (`spoof.go`): hunt state machine, poisoning actions, virtual MAC

A shallow embedding of `src/spoof.go`.  The client table is a list of slots, a client
pointer (`*ARPEntry`) is the index of its slot, and the packet-sending collaborators
are recorded in a log of attempted sends whose outcome is fixed by an oracle.
-/

namespace Arp

/-! ## Bytes, hardware addresses and IPv4 addresses -/

/-- A Go `byte`. -/
abbrev Byte := Fin 256

/-- Go `net.HardwareAddr`: a slice of bytes. -/
abbrev HardwareAddr := List Byte

/-- The four octets of an IPv4 address. -/
structure IPv4 where
  o0 : Byte
  o1 : Byte
  o2 : Byte
  o3 : Byte
deriving DecidableEq, Repr

/-- Go `net.IP` as this package uses it: `none` is the nil slice, `some a` an IPv4
address (ARP carries no other kind; the 4-byte and the 16-byte form of one IPv4
address are the same value here, as they are for `IP.Equal`). -/
abbrev IP := Option IPv4

/-- Go `net.IPv4zero`, the address 0.0.0.0. -/
def IPv4zero : IP := some ⟨0, 0, 0, 0⟩

/-- Go `IP.Equal`. -/
def IP.Equal (a b : IP) : Bool := decide (a = b)

/-- Go `IP.To4`: nil stays nil, an IPv4 address is returned in its 4-byte form. -/
def IP.To4 (a : IP) : IP := a

/-- The broadcast hardware address `ff:ff:ff:ff:ff:ff` (`EthernetBroadcast`). -/
def EthernetBroadcast : HardwareAddr := [0xff, 0xff, 0xff, 0xff, 0xff, 0xff]

/-! ## Text forms (`fmt.Sprintf`, `net.ParseMAC`, `IP.String`, `net.ParseIP`) -/

/-- One lower-case hexadecimal digit, as `%x` prints it. -/
def hexDigit (n : Nat) : Char :=
  match n with
  | 0 => '0' | 1 => '1' | 2 => '2' | 3 => '3' | 4 => '4' | 5 => '5' | 6 => '6' | 7 => '7'
  | 8 => '8' | 9 => '9' | 10 => 'a' | 11 => 'b' | 12 => 'c' | 13 => 'd' | 14 => 'e'
  | _ => 'f'

/-- The verb `%02x` applied to a byte: two hexadecimal digits. -/
def fmt02x (b : Byte) : List Char := [hexDigit (b.val / 16), hexDigit (b.val % 16)]

/-- The text `fmt.Sprintf("%02x:%02x:%02x:%02x:%02x:%02x", b0, ..., b5)`. -/
def sprintfMAC (b0 b1 b2 b3 b4 b5 : Byte) : List Char :=
  fmt02x b0 ++ ':' :: (fmt02x b1 ++ ':' :: (fmt02x b2 ++ ':' :: (fmt02x b3 ++ ':' ::
    (fmt02x b4 ++ ':' :: fmt02x b5))))

/-- Go `HardwareAddr.String`: the bytes in hexadecimal, separated by colons. -/
def HardwareAddr.String : HardwareAddr → List Char
  | [] => []
  | [b] => fmt02x b
  | b :: c :: bs => fmt02x b ++ ':' :: HardwareAddr.String (c :: bs)

/-- The value of one hexadecimal digit (the step of Go `xtoi`), if it is one. -/
def xtoiDigit (c : Char) : Option Nat :=
  if '0' ≤ c ∧ c ≤ '9' then some (c.toNat - 48)
  else if 'a' ≤ c ∧ c ≤ 'f' then some (c.toNat - 97 + 10)
  else if 'A' ≤ c ∧ c ≤ 'F' then some (c.toNat - 65 + 10)
  else none

/-- Go `xtoi2(s, e)`: two hexadecimal digits, followed by nothing or by `e`. -/
def xtoi2 (s : List Char) (e : Char) : Option Byte :=
  match s with
  | c0 :: c1 :: rest =>
    if (match rest with
        | c2 :: _ => decide (c2 ≠ e)
        | [] => false) then none
    else
      match xtoiDigit c0, xtoiDigit c1 with
      | some h, some l => some (Fin.ofNat (h * 16 + l))
      | _, _ => none
  | _ => none

/-- The loop of Go `net.ParseMAC` over `n` groups of three characters. -/
def parseMACloop (sep : Char) : Nat → List Char → Option HardwareAddr
  | 0, _ => some []
  | n + 1, s =>
    match xtoi2 s sep with
    | none => none
    | some b =>
      match parseMACloop sep n (s.drop 3) with
      | none => none
      | some bs => some (b :: bs)

/-- Go `net.ParseMAC` for the colon and dash forms (the form the code prints); the
four-digit dotted form is an error here. -/
def ParseMAC (s : List Char) : Option HardwareAddr :=
  if s.length < 14 then none
  else
    match s.get? 2 with
    | none => none
    | some sep =>
      if sep = ':' ∨ sep = '-' then
        if (s.length + 1) % 3 ≠ 0 then none
        else
          let n := (s.length + 1) / 3
          if n ≠ 6 ∧ n ≠ 8 ∧ n ≠ 20 then none
          else parseMACloop sep n s
      else none

/-- One decimal digit. -/
def decDigit (n : Nat) : Char :=
  match n with
  | 0 => '0' | 1 => '1' | 2 => '2' | 3 => '3' | 4 => '4' | 5 => '5' | 6 => '6' | 7 => '7'
  | 8 => '8' | _ => '9'

/-- Go `uitoa` on an octet: its decimal digits without leading zeros. -/
def uitoa (n : Nat) : List Char :=
  if n < 10 then [decDigit n]
  else if n < 100 then [decDigit (n / 10), decDigit (n % 10)]
  else [decDigit (n / 100), decDigit (n / 10 % 10), decDigit (n % 10)]

/-- Go `IP.String`: `<nil>` for the nil slice, dotted decimal for an IPv4 address. -/
def IP.String : IP → List Char
  | none => ['<', 'n', 'i', 'l', '>']
  | some a =>
    uitoa a.o0.val ++ '.' :: (uitoa a.o1.val ++ '.' :: (uitoa a.o2.val ++ '.' :: uitoa a.o3.val))

/-- The bound `big` of Go `dtoi`. -/
def big : Nat := 0xFFFFFF

/-- The loop of Go `dtoi`: decimal digits up to the first other character. -/
def dtoiLoop (n i : Nat) : List Char → Nat × Nat × Bool
  | [] => if i = 0 then (0, 0, false) else (n, i, true)
  | c :: s =>
    if '0' ≤ c ∧ c ≤ '9' then
      if n * 10 + (c.toNat - 48) ≥ big then (big, i, false)
      else dtoiLoop (n * 10 + (c.toNat - 48)) (i + 1) s
    else if i = 0 then (0, 0, false) else (n, i, true)

/-- Go `dtoi`: the number read, the count of characters consumed, and success. -/
def dtoi (s : List Char) : Nat × Nat × Bool := dtoiLoop 0 0 s

/-- The head of the loop body of Go `parseIPv4`: after the first octet (`i > 0`) a dot
is required and skipped. -/
def skipDot (first : Bool) (s : List Char) : Option (List Char) :=
  if first then some s
  else
    match s with
    | '.' :: r => some r
    | _ => none

/-- The loop of Go `parseIPv4` over the octets still to read; `first` is `i == 0`. -/
def parseIPv4loop (first : Bool) : Nat → List Char → Option (List Byte × List Char)
  | 0, s => some ([], s)
  | k + 1, s =>
    if s.length = 0 then none
    else
      match skipDot first s with
      | none => none
      | some s1 =>
        if !(dtoi s1).2.2 || decide ((dtoi s1).1 > 0xFF) then none
        else if decide ((dtoi s1).2.1 > 1) && decide (s1.head? = some '0') then none
        else
          match parseIPv4loop false k (s1.drop (dtoi s1).2.1) with
          | none => none
          | some (bs, rest) => some (Fin.ofNat (dtoi s1).1 :: bs, rest)

/-- Go `parseIPv4`: four dotted decimal octets and nothing after them. -/
def parseIPv4 (s : List Char) : IP :=
  match parseIPv4loop true 4 s with
  | some ([a, b, c, d], []) => some ⟨a, b, c, d⟩
  | _ => none

/-- Go `net.ParseIP`: a text whose first separator is a dot is read as IPv4; a text
without separator is not an address (nil).  A text whose first separator is a colon is
IPv6, which `IP.String` of an IPv4 address never prints; it is nil here. -/
def ParseIP (s : List Char) : IP :=
  match s.find? (fun c => decide (c = '.' ∨ c = ':')) with
  | some '.' => parseIPv4 s
  | _ => none

/-! ## Virtual MAC generator -/

/-- The six bytes `rand.Read` writes into `buf`. -/
structure Buf6 where
  b0 : Byte
  b1 : Byte
  b2 : Byte
  b3 : Byte
  b4 : Byte
  b5 : Byte
deriving DecidableEq, Repr

/-- Go `ARPNewVirtualMAC`.  The argument is the result of `rand.Read(buf)`: `none` when
it returns an error, the six bytes otherwise. -/
def ARPNewVirtualMAC (rnd : Option Buf6) : HardwareAddr :=
  match rnd with
  | none => []
  | some buf =>
    let b0 : Byte := Fin.ofNat ((buf.b0.val ||| 2) &&& 0xfe)
    (ParseMAC (sprintfMAC b0 buf.b1 buf.b2 buf.b3 buf.b4 buf.b5)).getD []

/-! ## Client table -/

/-- Modelled from the spec: the declaration of `arpState` is not in `spoof.go`; the spec
(section 4.2) names the states `Normal`, `Hunt` and `VirtualHost`. -/
inductive ARPState
  | ARPStateNormal
  | ARPStateHunt
  | ARPStateVirtualHost
deriving DecidableEq, Repr

open ARPState

/-- Modelled from the spec: the declaration of `ARPEntry` is not in `spoof.go`; these are
the fields the code reads and writes, as the spec (section 3) lists them. -/
structure ARPEntry where
  MAC : HardwareAddr
  IP : Arp.IP
  PreviousIP : Arp.IP
  State : ARPState
  Online : Bool
deriving DecidableEq, Repr

/-- The client table.  A slot holds an entry or is empty once its entry has been removed;
a client pointer `*ARPEntry` is the index of a slot, which removals elsewhere do not move. -/
abbrev Table := List (Option ARPEntry)

/-- The entry a client pointer refers to; `none` for an index that refers to no entry
(the functions below then do nothing: a Go pointer always refers to an entry). -/
def Table.entry (t : Table) (client : Nat) : Option ARPEntry := (t.get? client).join

/-- Modelled from the spec: `ARPFindMAC` is not in `spoof.go`; it is the collaborator
`FindByMAC(mac) -> *Entry | not-found` of section 6: the first entry of the table whose
MAC prints as the text `mac`. -/
def ARPFindMAC (t : Table) (mac : List Char) : Option Nat :=
  t.findIdx? (fun s =>
    match s with
    | some e => decide (HardwareAddr.String e.MAC = mac)
    | none => false)

/-- Modelled from the spec: `ARPFindIP` is not in `spoof.go`; it is the collaborator
`FindByIP(ip) -> *Entry | not-found` of section 6: the first entry of the table whose IP
equals `ip`. -/
def ARPFindIP (t : Table) (ip : IP) : Option Nat :=
  t.findIdx? (fun s =>
    match s with
    | some e => IP.Equal e.IP ip
    | none => false)

/-- Modelled from the spec: `arpTableAppend` is not in `spoof.go`; it is the collaborator
`AppendEntry(state, mac, ip) -> *Entry` of section 6: a new entry with that state, MAC and
IP is appended (its `PreviousIP` is zero, section 3) and a pointer to it is returned. -/
def arpTableAppend (t : Table) (state : ARPState) (mac : HardwareAddr) (ip : IP) : Table × Nat :=
  (t ++ [some { MAC := mac, IP := ip, PreviousIP := IPv4zero, State := state, Online := false }],
    t.length)

/-- Modelled from the spec: `actionUpdateClient` is not in `spoof.go`; it is the generic
update collaborator `UpdateClientIP(entry, mac, newIP) -> notifyCode` of sections 4.2 and 6:
the table is updated with the new IP of that entry; the code is negative when nothing
changed (no notification needed) and non-negative otherwise. -/
def actionUpdateClient (t : Table) (client : Nat) (_mac : HardwareAddr) (ip : IP) : Table × Int :=
  match t.entry client with
  | none => (t, -1)
  | some cl =>
    if IP.Equal cl.IP ip then (t, -1)
    else (t.set client (some { cl with IP := ip }), 0)

/-- Modelled from the spec: `deleteVirtualMAC` is not in `spoof.go`; it tears down the
virtual host of an address (sections 3 and 4.2): the first entry in state `VirtualHost`
whose IP equals `ip` is removed from the table. -/
def deleteVirtualMAC (t : Table) (ip : IP) : Table :=
  match t.findIdx? (fun s =>
      match s with
      | some e => decide (e.State = ARPStateVirtualHost) && IP.Equal e.IP ip
      | none => false) with
  | none => t
  | some i => t.set i none

/-! ## The client object, its collaborators and the errors -/

/-- A call of one of the packet-sending collaborators, with its arguments. -/
inductive Packet
  | announceUnicast (mac : HardwareAddr) (ip : IP) (targetMac : HardwareAddr)
  | announce (mac : HardwareAddr) (ip : IP)
  | reply (srcHwAddr : HardwareAddr) (srcIP : IP) (dstHwAddr : HardwareAddr) (dstIP : IP)
  | Reply (srcHwAddr : HardwareAddr) (srcIP : IP) (dstHwAddr : HardwareAddr) (dstIP : IP)
  | request (srcHwAddr : HardwareAddr) (srcIP : IP) (dstHwAddr : HardwareAddr) (dstIP : IP)
deriving DecidableEq, Repr

/-- The errors of `spoof.go`. -/
inductive Err
  /-- The text `ARP MAC not found`. -/
  | macNotFound
  /-- The text `client already in hunt state %s`. -/
  | alreadyHunt (ip : IP)
  /-- The text `ARP capture error missmatch in client table with actual client %s vs %s`. -/
  | mismatch (tableIP : IP) (clientIP : IP)
  /-- The text `cannot find virtual host for %s`. -/
  | noVirtualHost (ip : IP)
  /-- The error returned by the attempted send number `n`. -/
  | send (n : Nat)
deriving DecidableEq, Repr

/-- What an `ARPClient` is configured with, and the outcome of every attempted send:
`sendFails n` says that the send number `n` of the run returns an error. -/
structure Config where
  HostMAC : HardwareAddr
  RouterIP : IP
  /-- Whether `c.notification != nil`. -/
  hasNotification : Bool
  /-- Whether `c.tranChannel != nil`. -/
  hasTranChannel : Bool
  sendFails : Nat → Bool

/-- The state of an `ARPClient`: its table, the sends attempted so far, the values put on
the channel `notification`, and the hunt goroutines started (client and virtual host). -/
structure World where
  table : Table
  sent : List Packet
  notification : List ARPEntry
  tasks : List (Nat × Nat)
deriving DecidableEq, Repr

/-- One call of a packet-sending collaborator (`announce`, `announceUnicast`, `reply`,
`Reply`, `request`): the attempt is recorded and the oracle decides its result. -/
def send (cfg : Config) (w : World) (p : Packet) : World × Option Err :=
  ({ w with sent := w.sent ++ [p] },
    if cfg.sendFails w.sent.length then some (Err.send w.sent.length) else none)

/-- The lookup `virtual := c.ARPFindIP(ip)` with the test
`virtual == nil || virtual.State != ARPStateVirtualHost`. -/
def findVirtual (t : Table) (ip : IP) : Option ARPEntry :=
  match ARPFindIP t ip with
  | none => none
  | some v =>
    match t.entry v with
    | none => none
    | some virtual => if virtual.State ≠ ARPStateVirtualHost then none else some virtual

/-! ## Poisoning actions -/

/-- The loop `for i := 0; i < 2; i++` of `ARPSpoof`, with `n` iterations left. -/
def spoofReplies (cfg : Config) (cl : ARPEntry) (ip : IP) : Nat → World → World × Option Err
  | 0, w => (w, none)
  | n + 1, w =>
    match send cfg w (Packet.reply cfg.HostMAC cfg.RouterIP cl.MAC ip) with
    | (w1, some err) => (w1, some err)
    | (w1, none) => spoofReplies cfg cl ip n w1

/-- Go `ARPSpoof`. -/
def ARPSpoof (cfg : Config) (w : World) (client : Nat) : World × Option Err :=
  match w.table.entry client with
  | none => (w, none)
  | some cl =>
    let ip := if cl.State = ARPStateHunt then cl.PreviousIP else cl.IP
    match send cfg w (Packet.announceUnicast cfg.HostMAC cfg.RouterIP cl.MAC) with
    | (w1, some err) => (w1, some err)
    | (w1, none) =>
      match spoofReplies cfg cl ip 2 w1 with
      | (w2, some err) => (w2, some err)
      | (w2, none) =>
        match findVirtual w2.table ip with
        | none => (w2, some (Err.noVirtualHost ip))
        | some virtual =>
          -- the error of this announcement is logged, and nil is returned
          ((send cfg w2 (Packet.announce virtual.MAC virtual.IP)).1, none)

/-- The loop `for i := 0; i < 3; i++` of `actionClaimIP`, with `n` iterations left. -/
def claimReplies (cfg : Config) (cl virtual : ARPEntry) : Nat → World → World × Option Err
  | 0, w => (w, none)
  | n + 1, w =>
    -- the result of the reply to the client is dropped
    let w1 := (send cfg w (Packet.Reply virtual.MAC virtual.IP cl.MAC virtual.IP)).1
    match send cfg w1 (Packet.Reply virtual.MAC virtual.IP EthernetBroadcast virtual.IP) with
    | (w2, some err) => (w2, some err)
    | (w2, none) => claimReplies cfg cl virtual n w2

/-- Go `actionClaimIP`. -/
def actionClaimIP (cfg : Config) (w : World) (client : Nat) : World × Option Err :=
  match w.table.entry client with
  | none => (w, none)
  | some cl =>
    let ip := if cl.State = ARPStateHunt then cl.PreviousIP else cl.IP
    -- the result of ARPSpoof is dropped
    let w1 := (ARPSpoof cfg w client).1
    match findVirtual w1.table ip with
    | none => (w1, some (Err.noVirtualHost ip))
    | some virtual =>
      -- the error of this announcement is logged, and the function goes on
      let w2 := (send cfg w1 (Packet.announce virtual.MAC virtual.IP)).1
      claimReplies cfg cl virtual 3 w2

/-! ## Hunt state machine -/

/-- Go `actionStopHunt`. -/
def actionStopHunt (w : World) (client : Nat) : World :=
  match w.table.entry client with
  | none => w
  | some cl =>
    let t1 := deleteVirtualMAC w.table cl.PreviousIP
    match t1.entry client with
    | none => { w with table := t1 }
    | some cl1 =>
      if cl1.State = ARPStateHunt then
        { w with table := t1.set client (some { cl1 with
            State := ARPStateNormal, IP := cl1.PreviousIP, PreviousIP := IPv4zero }) }
      else { w with table := t1 }

/-- Go `actionRequestInHuntState`: the new world, `n` and `err`. -/
def actionRequestInHuntState (cfg : Config) (w : World) (client : Nat) (senderIP targetIP : IP) :
    World × Int × Option Err :=
  match w.table.entry client with
  | none => (w, 0, none)
  | some cl =>
    if !IP.Equal senderIP IPv4zero && !IP.Equal senderIP targetIP then (w, 0, none)
    else if !IP.Equal targetIP cl.PreviousIP then
      let t1 := w.table.set client (some { cl with State := ARPStateNormal })
      let r := actionUpdateClient t1 client cl.MAC targetIP
      ({ w with table := r.1 }, r.2, none)
    else
      let r := actionClaimIP cfg w client
      (r.1, 0, r.2)

/-- Go `ARPIPChanged`. -/
def ARPIPChanged (cfg : Config) (w : World) (clientHwAddr : HardwareAddr) (clientIP : IP) : World :=
  match ARPFindMAC w.table (HardwareAddr.String clientHwAddr) with
  | none => { w with table := (arpTableAppend w.table ARPStateNormal clientHwAddr clientIP).1 }
  | some client =>
    match w.table.entry client with
    | none => w
    | some cl =>
      if cl.State = ARPStateHunt then (actionRequestInHuntState cfg w client clientIP clientIP).1
      else
        let r := actionUpdateClient w.table client cl.MAC clientIP
        let w1 := { w with table := r.1 }
        if decide (r.2 ≥ 0) && cfg.hasNotification then
          match r.1.entry client with
          | none => w1
          | some cl1 => { w1 with notification := w1.notification ++ [cl1] }
        else w1

/-- Go `ARPForceIPChange`, up to the start of the goroutine, which is recorded in `tasks`
(its body is `huntTask`).  `rnd` is what `rand.Read` gives `ARPNewVirtualMAC`. -/
def ARPForceIPChange (w : World) (clientHwAddr : HardwareAddr) (clientIP : IP)
    (rnd : Option Buf6) : World × Option Err :=
  match ARPFindMAC w.table (HardwareAddr.String clientHwAddr) with
  | none => (w, some Err.macNotFound)
  | some client =>
    match w.table.entry client with
    | none => (w, some Err.macNotFound)
    | some cl =>
      if cl.State = ARPStateHunt then (w, some (Err.alreadyHunt cl.IP))
      else if IP.Equal cl.IP clientIP == false || IP.Equal cl.IP IPv4zero then
        (w, some (Err.mismatch cl.IP clientIP))
      else
        let r := arpTableAppend w.table ARPStateVirtualHost (ARPNewVirtualMAC rnd) clientIP
        let t2 := r.1.set client (some { cl with
          PreviousIP := IP.To4 (ParseIP (IP.String cl.IP)), IP := IPv4zero, State := ARPStateHunt })
        ({ w with table := t2, tasks := w.tasks ++ [(client, r.2)] }, none)

/-! ## Background loops

A goroutine reads the shared entry and the clock while other code runs.  What it reads is
given by an environment: `env k` is what its look number `k` at the entry and the clock
shows.  What it does is recorded as a list of events. -/

/-- What one look at the shared client entry and at the clock shows. -/
structure Obs where
  State : ARPState
  Online : Bool
  now : Nat
deriving DecidableEq, Repr

/-- The observable steps of the background loops. -/
inductive Event
  /-- A call `c.actionClaimIP(client)`. -/
  | claimIP
  /-- A call `c.ARPSpoof(client)`. -/
  | spoof
  /-- A call of `time.Sleep`, in milliseconds. -/
  | sleep (ms : Nat)
  /-- The send `c.tranChannel <- *client`. -/
  | tranChannel
  /-- The log line `ARP hunt failed`. -/
  | huntFailed
  /-- The deferred log line `ARP spoof loop terminated`. -/
  | spoofLoopTerminated
  /-- The deferred log line `ARP hunt end`. -/
  | huntEnd
deriving DecidableEq, Repr

/-- The constant `retryPeriod` (30 minutes), in seconds, the unit of `Obs.now`. -/
def retryPeriod : Nat := 30 * 60

/-- The burst `for i := 0; i < 20; i++` of `spoofLoop` with `n` iterations left, from look
`k`: the events, the next look, and whether the function returned from inside the loop. -/
def spoofBurst (env : Nat → Obs) : Nat → Nat → List Event × Nat × Bool
  | 0, k => ([], k, false)
  | n + 1, k =>
    if (env k).State ≠ ARPStateHunt then ([Event.claimIP], k + 1, true)
    else
      match spoofBurst env n (k + 1) with
      | (es, k1, ret) => (Event.claimIP :: es, k1, ret)

/-- The loop `for` of Go `spoofLoop` from look `k`, run for at most `fuel` turns: the
events, and whether the function has returned. -/
def spoofLoopIter (env : Nat → Obs) : Nat → Nat → Nat → List Event × Bool
  | 0, _, _ => ([], false)
  | fuel + 1, k, tryagain =>
    if (env k).State ≠ ARPStateHunt then ([Event.spoofLoopTerminated], true)
    else if (env k).Online then
      if (env k).now > tryagain then
        match spoofBurst env 20 (k + 1) with
        | (es, _, true) => (es ++ [Event.spoofLoopTerminated], true)
        | (es, k1, false) =>
          match spoofLoopIter env fuel k1 ((env k).now + retryPeriod) with
          | (es1, ret) => (es ++ es1, ret)
      else
        match spoofLoopIter env fuel (k + 1) tryagain with
        | (es1, ret) => (Event.spoof :: Event.sleep 10000 :: es1, ret)
    else
      match spoofLoopIter env fuel (k + 1) tryagain with
      | (es1, ret) => (Event.sleep 10000 :: es1, ret)

/-- Go `spoofLoop` from look `k`: `tryagain := time.Now().Add(retryPeriod)` reads the clock
at look `k`, then the loop runs for at most `fuel` turns. -/
def spoofLoop (env : Nat → Obs) (fuel k : Nat) : List Event × Bool :=
  spoofLoopIter env fuel (k + 1) ((env k).now + retryPeriod)

/-- The loop `for i := 0; i < 20; i++` of the goroutine of `ARPForceIPChange` with `n`
iterations left, from look `k`: the events, the next look, and whether the goroutine
returned from inside the loop. -/
def claimLoop (env : Nat → Obs) : Nat → Nat → List Event × Nat × Bool
  | 0, k => ([], k, false)
  | n + 1, k =>
    if (env k).State ≠ ARPStateHunt then ([], k + 1, true)
    else
      match claimLoop env n (k + 1) with
      | (es, k1, ret) => (Event.claimIP :: Event.sleep 4000 :: es, k1, ret)

/-- The goroutine started by `ARPForceIPChange`, its spoof loop run for at most `fuel`
turns: the events, and whether the goroutine has ended. -/
def huntTask (cfg : Config) (env : Nat → Obs) (fuel : Nat) : List Event × Bool :=
  match claimLoop env 20 0 with
  | (es, _, true) => (es ++ [Event.huntEnd], true)
  | (es, k, false) =>
    -- the send on the channel is taken to complete
    let notify := if cfg.hasTranChannel then [Event.tranChannel] else []
    match spoofLoop env fuel k with
    | (es1, true) => (es ++ notify ++ [Event.huntFailed] ++ es1 ++ [Event.huntEnd], true)
    | (es1, false) => (es ++ notify ++ [Event.huntFailed] ++ es1, false)

/-! ## Runs of the state machine -/

/-- The operations that change the table, with the arguments of the Go functions; an
address is any `net.IP`, the nil slice included. -/
inductive Op
  /-- A call `ARPForceIPChange(m, a)`; `rnd` is what `rand.Read` gives. -/
  | forceHunt (m : HardwareAddr) (a : IP) (rnd : Option Buf6)
  /-- A call `ARPIPChanged(m, a)`. -/
  | ipChanged (m : HardwareAddr) (a : IP)
  /-- A call `actionRequestInHuntState(client, sender, target)`. -/
  | requestInHunt (client : Nat) (sender : IP) (target : IP)
  /-- A call `actionStopHunt(client)`. -/
  | stopHunt (client : Nat)

/-- One operation. -/
def step (cfg : Config) (w : World) : Op → World
  | Op.forceHunt m a rnd => (ARPForceIPChange w m a rnd).1
  | Op.ipChanged m a => ARPIPChanged cfg w m a
  | Op.requestInHunt client sender target =>
    (actionRequestInHuntState cfg w client sender target).1
  | Op.stopHunt client => actionStopHunt w client

/-- Whether an operation, if it is a force-hunt, is called with an address (not with the
nil slice).  The other operations pass for every argument. -/
def Op.addressGiven : Op → Bool
  | Op.forceHunt _ a _ => a.isSome
  | _ => true

/-- A sequence of operations, from the left. -/
def run (cfg : Config) (w : World) (ops : List Op) : World := ops.foldl (step cfg) w

/-- The number of entries in state `VirtualHost` with IP `ip`. -/
def countVirtual (t : Table) (ip : IP) : Nat :=
  t.countP (fun s =>
    match s with
    | some e => decide (e.State = ARPStateVirtualHost) && decide (e.IP = ip)
    | none => false)

/-- The parts of the world other than the log of sends. -/
def SameState (w w1 : World) : Prop :=
  w1.table = w.table ∧ w1.notification = w.notification ∧ w1.tasks = w.tasks

/-- What the specification requires of a hunted entry: its IP is zero and its PreviousIP
is a non-zero address. -/
def HuntOk (e : ARPEntry) : Prop :=
  e.State = ARPStateHunt →
    e.IP = IPv4zero ∧ ∃ p : IPv4, e.PreviousIP = some p ∧ (some p : IP) ≠ IPv4zero

/-- Every entry of the table satisfies `HuntOk`. -/
def HuntInv (t : Table) : Prop := ∀ e, some e ∈ t → HuntOk e

/-- The address an action poisons: `ip := client.IP`, or `client.PreviousIP` while the
client is hunted. -/
def poisonedIP (cl : ARPEntry) : IP :=
  if cl.State = ARPStateHunt then cl.PreviousIP else cl.IP

/-- The sends of `ARPSpoof` to the client, in order: the unicast announcement and the two
gratuitous replies. -/
def spoofSends (cfg : Config) (cl : ARPEntry) : List Packet :=
  [Packet.announceUnicast cfg.HostMAC cfg.RouterIP cl.MAC,
   Packet.reply cfg.HostMAC cfg.RouterIP cl.MAC (poisonedIP cl),
   Packet.reply cfg.HostMAC cfg.RouterIP cl.MAC (poisonedIP cl)]

/-- The sends of `actionClaimIP` after its call of `ARPSpoof`, in order: the broadcast
announcement, then three times a reply to the client and a reply to the broadcast address. -/
def claimSends (cl virtual : ARPEntry) : List Packet :=
  [Packet.announce virtual.MAC virtual.IP,
   Packet.Reply virtual.MAC virtual.IP cl.MAC virtual.IP,
   Packet.Reply virtual.MAC virtual.IP EthernetBroadcast virtual.IP,
   Packet.Reply virtual.MAC virtual.IP cl.MAC virtual.IP,
   Packet.Reply virtual.MAC virtual.IP EthernetBroadcast virtual.IP,
   Packet.Reply virtual.MAC virtual.IP cl.MAC virtual.IP,
   Packet.Reply virtual.MAC virtual.IP EthernetBroadcast virtual.IP]

/-- Among the `n` looks from look `k` on, the number of leading looks that show the state
Hunt. -/
def huntLooks (env : Nat → Obs) : Nat → Nat → Nat
  | 0, _ => 0
  | n + 1, k => if (env k).State = ARPStateHunt then huntLooks env n (k + 1) + 1 else 0

/-- The events of `c` full turns of the claim loop: a call of ClaimIP and a sleep of four
seconds each. -/
def claimRounds : Nat → List Event
  | 0 => []
  | c + 1 => Event.claimIP :: Event.sleep 4000 :: claimRounds c

/-! ## The scenario of the specification -/

/-- The client MAC `AA:BB:CC:00:00:01`. -/
def macA : HardwareAddr := [0xAA, 0xBB, 0xCC, 0x00, 0x00, 0x01]

/-- A second client MAC, `AA:BB:CC:00:00:02`. -/
def macB : HardwareAddr := [0xAA, 0xBB, 0xCC, 0x00, 0x00, 0x02]

/-- The address 192.168.1.50. -/
def ip50 : IPv4 := ⟨192, 168, 1, 50⟩

/-- The address 192.168.1.99. -/
def ip99 : IPv4 := ⟨192, 168, 1, 99⟩

/-- Six bytes from the random source. -/
def rndEx : Option Buf6 := some ⟨0x11, 0x22, 0x33, 0x44, 0x55, 0x66⟩

/-- A configuration with both channels and no failing send. -/
def cfgEx : Config :=
  { HostMAC := [0x02, 0x00, 0x00, 0x00, 0x00, 0x01], RouterIP := some ⟨192, 168, 1, 1⟩,
    hasNotification := true, hasTranChannel := true, sendFails := fun _ => false }

/-- The table with the single client `AA:BB:CC:00:00:01` at 192.168.1.50, in state Normal. -/
def wNormal : World :=
  { table := [some { MAC := macA, IP := some ip50, PreviousIP := IPv4zero,
                     State := ARPStateNormal, Online := true }],
    sent := [], notification := [], tasks := [] }

/-- The world after that client has been force-hunted. -/
def wHunt : World := (ARPForceIPChange wNormal macA (some ip50) rndEx).1

/-- The empty world. -/
def wEmpty : World := { table := [], sent := [], notification := [], tasks := [] }

/-- The configuration `cfgEx` in which exactly the send number `n` returns an error. -/
def cfgFailAt (n : Nat) : Config := { cfgEx with sendFails := fun k => k == n }

/-- The configuration `cfgEx` without the channel `tranChannel`. -/
def cfgNoTran : Config := { cfgEx with hasTranChannel := false }

/-- The hunted client of the scenario. -/
def clientHunted : ARPEntry :=
  { MAC := macA, IP := IPv4zero, PreviousIP := some ip50, State := ARPStateHunt, Online := true }

/-- The virtual host of the scenario. -/
def virtualEx : ARPEntry :=
  { MAC := ARPNewVirtualMAC rndEx, IP := some ip50, PreviousIP := IPv4zero,
    State := ARPStateVirtualHost, Online := false }

/-- An environment in which the client is hunted, online, at time 0, at every look. -/
def envHunt : Nat → Obs := fun _ => { State := ARPStateHunt, Online := true, now := 0 }

/-- The world reached from the empty table when the clients `AA:BB:CC:00:00:01` and
`AA:BB:CC:00:00:02` are both reported at 192.168.1.50 and the first is force-hunted. -/
def wTwoClients : World :=
  run cfgEx wEmpty [Op.ipChanged macA (some ip50), Op.ipChanged macB (some ip50),
    Op.forceHunt macA (some ip50) rndEx]

/-- The second client, hunted away from 192.168.1.99. -/
def secondHunted : ARPEntry :=
  { MAC := macB, IP := IPv4zero, PreviousIP := some ip99, State := ARPStateHunt, Online := false }

/-- An environment in which the first 20 looks show Hunt and every later look shows Normal:
the client leaves the hunt during the last attempt of the claim loop. -/
def envLate : Nat → Obs :=
  fun k => { State := if k < 20 then ARPStateHunt else ARPStateNormal, Online := true, now := 0 }


/-! ## Text forms: printing and parsing are inverse -/

theorem xtoiDigit_hexDigit : ∀ n, n < 16 → xtoiDigit (hexDigit n) = some n := by decide

theorem byte_of_nibbles (b : Byte) : (Fin.ofNat (b.val / 16 * 16 + b.val % 16) : Byte) = b := by
  apply Fin.ext
  simp [Fin.ofNat]
  omega

theorem xtoi2_last (b : Byte) (e : Char) :
    xtoi2 [hexDigit (b.val / 16), hexDigit (b.val % 16)] e = some b := by
  have h1 := xtoiDigit_hexDigit (b.val / 16) (by omega)
  have h2 := xtoiDigit_hexDigit (b.val % 16) (by omega)
  simp [xtoi2, h1, h2, byte_of_nibbles]

theorem xtoi2_sep (b : Byte) (e : Char) (r : List Char) :
    xtoi2 (hexDigit (b.val / 16) :: hexDigit (b.val % 16) :: e :: r) e = some b := by
  have h1 := xtoiDigit_hexDigit (b.val / 16) (by omega)
  have h2 := xtoiDigit_hexDigit (b.val % 16) (by omega)
  simp [xtoi2, h1, h2, byte_of_nibbles]

/-- Printing six bytes with `%02x` and colons and parsing the text gives the bytes back. -/
theorem ParseMAC_sprintfMAC (b0 b1 b2 b3 b4 b5 : Byte) :
    ParseMAC (sprintfMAC b0 b1 b2 b3 b4 b5) = some [b0, b1, b2, b3, b4, b5] := by
  simp [ParseMAC, sprintfMAC, fmt02x, parseMACloop, xtoi2_last, xtoi2_sep]

theorem decDigit_digit : ∀ d, d < 10 →
    ('0' ≤ decDigit d ∧ decDigit d ≤ '9') ∧ (decDigit d).toNat - 48 = d := by decide

theorem decDigit_zero : ∀ d, d < 10 → (decDigit d = '0' ↔ d = 0) := by decide

theorem decDigit_not_sep : ∀ d, d < 10 → decDigit d ≠ '.' ∧ decDigit d ≠ ':' := by decide

theorem dtoiLoop_digit (n i d : Nat) (s : List Char) (hd : d < 10) (hn : n * 10 + d < big) :
    dtoiLoop n i (decDigit d :: s) = dtoiLoop (n * 10 + d) (i + 1) s := by
  have h := decDigit_digit d hd
  rw [dtoiLoop]
  simp [h.1, h.2]
  omega

theorem dtoiLoop_dot (n i : Nat) (s : List Char) (hi : i ≠ 0) :
    dtoiLoop n i ('.' :: s) = (n, i, true) := by
  rw [dtoiLoop]
  simp [hi]

theorem dtoiLoop_nil (n i : Nat) (hi : i ≠ 0) : dtoiLoop n i [] = (n, i, true) := by
  simp [dtoiLoop, hi]

/-- What `dtoi` reads back from a printed octet that is followed by a dot or by nothing. -/
theorem dtoi_uitoa (n : Nat) (hn : n < 256) (rest : List Char)
    (hr : rest = [] ∨ ∃ r, rest = '.' :: r) :
    dtoi (uitoa n ++ rest) = (n, (uitoa n).length, true) := by
  have hb : (256 : Nat) < big := by decide
  unfold dtoi uitoa
  split
  · rcases hr with rfl | ⟨r, rfl⟩
    · simp only [List.singleton_append]
      rw [dtoiLoop_digit 0 0 n _ (by omega) (by omega), dtoiLoop_nil _ _ (by omega)]
      simp
    · simp only [List.singleton_append]
      rw [dtoiLoop_digit 0 0 n _ (by omega) (by omega), dtoiLoop_dot _ _ _ (by omega)]
      simp
  · split
    · rcases hr with rfl | ⟨r, rfl⟩
      · simp only [List.cons_append, List.nil_append]
        rw [dtoiLoop_digit 0 0 (n / 10) _ (by omega) (by omega),
          dtoiLoop_digit _ _ (n % 10) _ (by omega) (by omega), dtoiLoop_nil _ _ (by omega)]
        simp
        omega
      · simp only [List.cons_append, List.nil_append]
        rw [dtoiLoop_digit 0 0 (n / 10) _ (by omega) (by omega),
          dtoiLoop_digit _ _ (n % 10) _ (by omega) (by omega), dtoiLoop_dot _ _ _ (by omega)]
        simp
        omega
    · rcases hr with rfl | ⟨r, rfl⟩
      · simp only [List.cons_append, List.nil_append]
        rw [dtoiLoop_digit 0 0 (n / 100) _ (by omega) (by omega),
          dtoiLoop_digit _ _ (n / 10 % 10) _ (by omega) (by omega),
          dtoiLoop_digit _ _ (n % 10) _ (by omega) (by omega), dtoiLoop_nil _ _ (by omega)]
        simp
        omega
      · simp only [List.cons_append, List.nil_append]
        rw [dtoiLoop_digit 0 0 (n / 100) _ (by omega) (by omega),
          dtoiLoop_digit _ _ (n / 10 % 10) _ (by omega) (by omega),
          dtoiLoop_digit _ _ (n % 10) _ (by omega) (by omega), dtoiLoop_dot _ _ _ (by omega)]
        simp
        omega

theorem uitoa_ne_nil (n : Nat) : uitoa n ≠ [] := by
  unfold uitoa
  split
  · simp
  · split <;> simp

/-- A printed octet of more than one digit does not start with `0`. -/
theorem uitoa_head (n : Nat) (hn : n < 256) (rest : List Char) (h : 1 < (uitoa n).length) :
    (uitoa n ++ rest).head? ≠ some '0' := by
  unfold uitoa at h ⊢
  split
  · rename_i h1
    simp [h1] at h
  · split
    · simp
      rw [decDigit_zero _ (by omega)]
      omega
    · simp
      rw [decDigit_zero _ (by omega)]
      omega

theorem find_sep_uitoa (n : Nat) (hn : n < 256) (r : List Char) :
    List.find? (fun c => decide (c = '.' ∨ c = ':')) (uitoa n ++ '.' :: r) = some '.' := by
  have h0 := decDigit_not_sep (n % 10) (by omega)
  have h1 := decDigit_not_sep (n / 10) 
  have h2 := decDigit_not_sep (n / 100) (by omega)
  have h3 := decDigit_not_sep (n / 10 % 10) (by omega)
  have h4 := decDigit_not_sep n
  unfold uitoa
  split
  · have := h4 (by omega)
    simp [List.find?, this.1, this.2]
  · split
    · have := h1 (by omega)
      simp [List.find?, this.1, this.2, h0.1, h0.2]
    · simp [List.find?, h2.1, h2.2, h3.1, h3.2, h0.1, h0.2]

theorem byte_ofNat_val (b : Byte) : (Fin.ofNat b.val : Byte) = b := by
  apply Fin.ext
  simp [Fin.ofNat]

theorem parseIPv4loop_first (k : Nat) (b : Byte) (rest : List Char)
    (hr : rest = [] ∨ ∃ r, rest = '.' :: r) :
    parseIPv4loop true (k + 1) (uitoa b.val ++ rest) =
      match parseIPv4loop false k rest with
      | none => none
      | some (bs, tl) => some (b :: bs, tl) := by
  have hne := uitoa_ne_nil b.val
  have hd := dtoi_uitoa b.val b.isLt rest hr
  have hh := uitoa_head b.val b.isLt rest
  have hlen : (uitoa b.val ++ rest).length ≠ 0 := by
    simp [hne]
  have hs : skipDot true (uitoa b.val ++ rest) = some (uitoa b.val ++ rest) := by
    simp [skipDot]
  have hb : ¬ (b.val > 255) := by omega
  have hz : ¬ (1 < (uitoa b.val).length ∧ (uitoa b.val ++ rest).head? = some '0') :=
    fun h => hh h.1 h.2
  rw [parseIPv4loop, if_neg hlen, hs]
  simp only [hd]
  simp [hb, byte_ofNat_val]
  intro h1 h2
  have h3 := hh h1
  simp at h3
  rcases h2 with h2 | h2
  · exact absurd h2 h3.1
  · exact absurd h2.1 hne

theorem parseIPv4loop_next (k : Nat) (b : Byte) (rest : List Char)
    (hr : rest = [] ∨ ∃ r, rest = '.' :: r) :
    parseIPv4loop false (k + 1) ('.' :: (uitoa b.val ++ rest)) =
      match parseIPv4loop false k rest with
      | none => none
      | some (bs, tl) => some (b :: bs, tl) := by
  have hne := uitoa_ne_nil b.val
  have hd := dtoi_uitoa b.val b.isLt rest hr
  have hh := uitoa_head b.val b.isLt rest
  have hs : skipDot false ('.' :: (uitoa b.val ++ rest)) = some (uitoa b.val ++ rest) := by
    simp [skipDot]
  have hb : ¬ (b.val > 255) := by omega
  have hz : ¬ (1 < (uitoa b.val).length ∧ (uitoa b.val ++ rest).head? = some '0') :=
    fun h => hh h.1 h.2
  rw [parseIPv4loop, if_neg (by simp), hs]
  simp only [hd]
  simp [hb, byte_ofNat_val]
  intro h1 h2
  have h3 := hh h1
  simp at h3
  rcases h2 with h2 | h2
  · exact absurd h2 h3.1
  · exact absurd h2.1 hne

/-- Printing an IPv4 address and parsing the text gives the address back. -/
theorem ParseIP_String (a : IPv4) : (ParseIP (IP.String (some a))).To4 = some a := by
  unfold ParseIP IP.String IP.To4
  rw [find_sep_uitoa _ a.o0.isLt]
  simp only [parseIPv4]
  rw [parseIPv4loop_first _ _ _ (Or.inr ⟨_, rfl⟩), parseIPv4loop_next _ _ _ (Or.inr ⟨_, rfl⟩),
    parseIPv4loop_next _ _ _ (Or.inr ⟨_, rfl⟩)]
  have := parseIPv4loop_next 0 a.o3 [] (Or.inl rfl)
  simp only [List.append_nil] at this
  rw [this]
  simp [parseIPv4loop]


/-! ## Virtual MAC generator -/

theorem localBit (n : Nat) : ((n ||| 2) &&& 0xfe).testBit 1 = true ∧ ((n ||| 2) &&& 0xfe).testBit 0 = false := by
  have h21 : Nat.testBit 2 1 = true := by decide
  have h20 : Nat.testBit 2 0 = false := by decide
  have hf1 : Nat.testBit 254 1 = true := by decide
  have hf0 : Nat.testBit 254 0 = false := by decide
  constructor
  · rw [Nat.testBit_land, Nat.testBit_lor, h21, hf1]
    simp
  · rw [Nat.testBit_land, hf0]
    simp

theorem localByte_val (b : Byte) :
    (Fin.ofNat ((b.val ||| 2) &&& 0xfe) : Byte).val = (b.val ||| 2) &&& 0xfe := by
  have h : (b.val ||| 2) &&& 0xfe ≤ 0xfe := Nat.and_le_right
  simp [Fin.ofNat]
  omega

/-- C8: for every six bytes delivered by the random source, `ARPNewVirtualMAC` returns the
six-octet address whose first octet is `(b0 | 2) & 0xfe` (no wrap-around), with bit 1 set
and bit 0 clear, and whose other octets are `b1..b5`; printing with `%02x` and parsing
with `ParseMAC` loses nothing, and the result is never the broadcast address. -/
theorem ARPNewVirtualMAC_local_unicast (b0 b1 b2 b3 b4 b5 : Byte) :
    ARPNewVirtualMAC (some ⟨b0, b1, b2, b3, b4, b5⟩)
        = [Fin.ofNat ((b0.val ||| 2) &&& 0xfe), b1, b2, b3, b4, b5]
      ∧ (Fin.ofNat ((b0.val ||| 2) &&& 0xfe) : Byte).val = (b0.val ||| 2) &&& 0xfe
      ∧ ((b0.val ||| 2) &&& 0xfe).testBit 1 = true
      ∧ ((b0.val ||| 2) &&& 0xfe).testBit 0 = false
      ∧ ParseMAC (sprintfMAC (Fin.ofNat ((b0.val ||| 2) &&& 0xfe)) b1 b2 b3 b4 b5)
          = some [Fin.ofNat ((b0.val ||| 2) &&& 0xfe), b1, b2, b3, b4, b5]
      ∧ ARPNewVirtualMAC (some ⟨b0, b1, b2, b3, b4, b5⟩) ≠ EthernetBroadcast := by
  have hmac : ARPNewVirtualMAC (some ⟨b0, b1, b2, b3, b4, b5⟩)
      = [Fin.ofNat ((b0.val ||| 2) &&& 0xfe), b1, b2, b3, b4, b5] := by
    simp [ARPNewVirtualMAC, ParseMAC_sprintfMAC]
  refine ⟨hmac, localByte_val b0, (localBit b0.val).1, (localBit b0.val).2,
    ParseMAC_sprintfMAC _ _ _ _ _ _, ?_⟩
  rw [hmac]
  intro h
  have h0 : (Fin.ofNat ((b0.val ||| 2) &&& 0xfe) : Byte) = 0xff := by
    simpa [EthernetBroadcast] using (List.cons.inj h).1
  have h1 := congrArg Fin.val h0
  rw [localByte_val] at h1
  have h2 := (localBit b0.val).2
  rw [h1] at h2
  exact absurd h2 (by decide)

/-! ## Table lemmas -/

theorem entry_eq_some {t : Table} {j : Nat} {e : ARPEntry} :
    t.entry j = some e ↔ t.get? j = some (some e) := by
  unfold Table.entry
  cases h : t.get? j with
  | none => simp
  | some s => cases s <;> simp

theorem entry_lt {t : Table} {j : Nat} {e : ARPEntry} (h : t.entry j = some e) : j < t.length := by
  rw [entry_eq_some] at h
  exact (List.get?_eq_some.mp h).1

theorem entry_mem {t : Table} {j : Nat} {e : ARPEntry} (h : t.entry j = some e) : some e ∈ t := by
  rw [entry_eq_some] at h
  exact List.get?_mem h

theorem IP_Equal_iff (a b : IP) : IP.Equal a b = true ↔ a = b := by
  simp [IP.Equal]

/-! ## Force-hunt -/

/-- C1: if the entry for MAC `m` exists, is in state Normal and has the non-zero IP `a`,
then `ARPForceIPChange m a` returns no error, leaves that entry with State = Hunt,
IP = 0.0.0.0 and PreviousIP = `a`, and appends one new entry with State = VirtualHost,
IP = `a` and the generated virtual MAC; every other entry is unchanged. -/
theorem ARPForceIPChange_success (w : World) (m : HardwareAddr) (a : IPv4) (rnd : Option Buf6)
    (i : Nat) (e : ARPEntry)
    (hfind : ARPFindMAC w.table (HardwareAddr.String m) = some i)
    (he : w.table.entry i = some e)
    (hst : e.State = ARPStateNormal) (hip : e.IP = some a) (hnz : (some a : IP) ≠ IPv4zero) :
    (ARPForceIPChange w m (some a) rnd).2 = none
      ∧ ∃ v : ARPEntry, v.State = ARPStateVirtualHost ∧ v.IP = some a
          ∧ v.MAC = ARPNewVirtualMAC rnd
          ∧ (ARPForceIPChange w m (some a) rnd).1.table
              = w.table.set i (some { e with
                  State := ARPStateHunt, IP := IPv4zero, PreviousIP := some a }) ++ [some v] := by
  have hlt := entry_lt he
  have heq : IP.Equal e.IP (some a) = true := by simp [IP.Equal, hip]
  have hz : IP.Equal e.IP IPv4zero = false := by simpa [IP.Equal, hip] using hnz
  have hprev : IP.To4 (ParseIP (IP.String e.IP)) = some a := by
    rw [hip]
    exact ParseIP_String a
  unfold ARPForceIPChange
  simp only [hfind, he, hst, heq, hz, hprev, arpTableAppend]
  refine ⟨by simp, ⟨{ MAC := ARPNewVirtualMAC rnd, IP := some a, PreviousIP := IPv4zero,
                       State := ARPStateVirtualHost, Online := false }, rfl, rfl, rfl, ?_⟩⟩
  simp [List.set_append_left _ _ hlt]

/-- The call itself sends no packet and puts nothing on a channel, in every case: it only
starts the goroutine.  (The comment above the Go function also lists a direct spoof and a
callback; the direct call `ARPSpoof(client)` is commented out in the code.) -/
theorem ARPForceIPChange_sends_nothing (w : World) (m : HardwareAddr) (clientIP : IP)
    (rnd : Option Buf6) :
    (ARPForceIPChange w m clientIP rnd).1.sent = w.sent
      ∧ (ARPForceIPChange w m clientIP rnd).1.notification = w.notification := by
  unfold ARPForceIPChange
  cases ARPFindMAC w.table (HardwareAddr.String m) with
  | none => exact ⟨rfl, rfl⟩
  | some client =>
    simp only []
    cases w.table.entry client with
    | none => exact ⟨rfl, rfl⟩
    | some cl =>
      simp only []
      split
      · exact ⟨rfl, rfl⟩
      · split
        · exact ⟨rfl, rfl⟩
        · exact ⟨rfl, rfl⟩

/-- Witness of C1: the client `AA:BB:CC:00:00:01` at 192.168.1.50. -/
theorem ARPForceIPChange_success_witness :
    (ARPForceIPChange wNormal macA (some ip50) rndEx).2 = none
      ∧ ∃ v : ARPEntry, v.State = ARPStateVirtualHost ∧ v.IP = some ip50
          ∧ v.MAC = ARPNewVirtualMAC rndEx
          ∧ (ARPForceIPChange wNormal macA (some ip50) rndEx).1.table
              = wNormal.table.set 0 (some
                  { MAC := macA, IP := IPv4zero, PreviousIP := some ip50,
                    State := ARPStateHunt, Online := true }) ++ [some v] :=
  ARPForceIPChange_success wNormal macA ip50 rndEx 0
    { MAC := macA, IP := some ip50, PreviousIP := IPv4zero, State := ARPStateNormal, Online := true }
    (by decide) (by decide) rfl rfl (by decide)

/-- C2: if the entry for MAC `m` is absent, or is already in state Hunt, or its recorded
IP differs from the supplied IP, then `ARPForceIPChange` returns an error and leaves the
table (and everything else) exactly as it was. -/
theorem ARPForceIPChange_rejects (w : World) (m : HardwareAddr) (clientIP : IP)
    (rnd : Option Buf6)
    (h : ARPFindMAC w.table (HardwareAddr.String m) = none
      ∨ ∃ i e, ARPFindMAC w.table (HardwareAddr.String m) = some i ∧ w.table.entry i = some e
          ∧ (e.State = ARPStateHunt ∨ e.IP ≠ clientIP)) :
    (ARPForceIPChange w m clientIP rnd).2 ≠ none ∧ (ARPForceIPChange w m clientIP rnd).1 = w := by
  unfold ARPForceIPChange
  rcases h with h | ⟨i, e, hfind, he, hc⟩
  · simp [h]
  · simp only [hfind, he]
    by_cases hs : e.State = ARPStateHunt
    · simp [hs]
    · have hne : e.IP ≠ clientIP := hc.resolve_left hs
      have hf : IP.Equal e.IP clientIP = false := by simpa [IP.Equal] using hne
      simp [hs, hf]

/-- Witness of C2: force-hunt of the client that is already hunted. -/
theorem ARPForceIPChange_rejects_witness :
    (ARPForceIPChange wHunt macA (some ip50) rndEx).2 ≠ none
      ∧ (ARPForceIPChange wHunt macA (some ip50) rndEx).1 = wHunt :=
  ARPForceIPChange_rejects wHunt macA (some ip50) rndEx
    (Or.inr ⟨0,
      { MAC := macA, IP := IPv4zero, PreviousIP := some ip50,
        State := ARPStateHunt, Online := true }, by decide, by decide, Or.inl rfl⟩)

/-! ## Poisoning actions only send -/

theorem SameState.rfl_ (w : World) : SameState w w := ⟨rfl, rfl, rfl⟩

theorem SameState.trans_ {w w1 w2 : World} (h1 : SameState w w1) (h2 : SameState w1 w2) :
    SameState w w2 :=
  ⟨h2.1.trans h1.1, h2.2.1.trans h1.2.1, h2.2.2.trans h1.2.2⟩

theorem send_same (cfg : Config) (w : World) (p : Packet) : SameState w (send cfg w p).1 :=
  ⟨rfl, rfl, rfl⟩

theorem spoofReplies_same (cfg : Config) (cl : ARPEntry) (ip : IP) (n : Nat) (w : World) :
    SameState w (spoofReplies cfg cl ip n w).1 := by
  induction n generalizing w with
  | zero => exact SameState.rfl_ w
  | succ n ih =>
    rw [spoofReplies]
    cases hf : cfg.sendFails w.sent.length
    · simp only [send, hf]
      exact SameState.trans_ ⟨rfl, rfl, rfl⟩ (ih _)
    · simp only [send, hf]
      exact ⟨rfl, rfl, rfl⟩

theorem ARPSpoof_same (cfg : Config) (w : World) (client : Nat) :
    SameState w (ARPSpoof cfg w client).1 := by
  unfold ARPSpoof
  cases he : w.table.entry client with
  | none => exact SameState.rfl_ w
  | some cl =>
    simp only []
    cases hs : send cfg w (Packet.announceUnicast cfg.HostMAC cfg.RouterIP cl.MAC) with
    | mk w1 r1 =>
      have h1 : SameState w w1 := by
        have := send_same cfg w (Packet.announceUnicast cfg.HostMAC cfg.RouterIP cl.MAC)
        rwa [hs] at this
      cases r1 with
      | some err => exact h1
      | none =>
        simp only []
        cases hr : spoofReplies cfg cl
            (if cl.State = ARPStateHunt then cl.PreviousIP else cl.IP) 2 w1 with
        | mk w2 r2 =>
          have h2 : SameState w1 w2 := by
            have := spoofReplies_same cfg cl
              (if cl.State = ARPStateHunt then cl.PreviousIP else cl.IP) 2 w1
            rwa [hr] at this
          cases r2 with
          | some err => exact SameState.trans_ h1 h2
          | none =>
            simp only []
            cases findVirtual w2.table
                (if cl.State = ARPStateHunt then cl.PreviousIP else cl.IP) with
            | none => exact SameState.trans_ h1 h2
            | some virtual =>
              exact SameState.trans_ (SameState.trans_ h1 h2) (send_same cfg w2 _)

theorem claimReplies_same (cfg : Config) (cl virtual : ARPEntry) (n : Nat) (w : World) :
    SameState w (claimReplies cfg cl virtual n w).1 := by
  induction n generalizing w with
  | zero => exact SameState.rfl_ w
  | succ n ih =>
    rw [claimReplies]
    cases hs : send cfg (send cfg w (Packet.Reply virtual.MAC virtual.IP cl.MAC virtual.IP)).1
        (Packet.Reply virtual.MAC virtual.IP EthernetBroadcast virtual.IP) with
    | mk w2 r2 =>
      have h2 : SameState w w2 := by
        have := SameState.trans_ (send_same cfg w (Packet.Reply virtual.MAC virtual.IP cl.MAC virtual.IP))
          (send_same cfg (send cfg w (Packet.Reply virtual.MAC virtual.IP cl.MAC virtual.IP)).1
            (Packet.Reply virtual.MAC virtual.IP EthernetBroadcast virtual.IP))
        rwa [hs] at this
      cases r2 with
      | some err => exact h2
      | none => exact SameState.trans_ h2 (ih w2)

/-- The claim action reads the table and sends packets; it writes nothing else. -/
theorem actionClaimIP_same (cfg : Config) (w : World) (client : Nat) :
    SameState w (actionClaimIP cfg w client).1 := by
  unfold actionClaimIP
  cases he : w.table.entry client with
  | none => exact SameState.rfl_ w
  | some cl =>
    simp only []
    have h1 := ARPSpoof_same cfg w client
    cases findVirtual (ARPSpoof cfg w client).1.table
        (if cl.State = ARPStateHunt then cl.PreviousIP else cl.IP) with
    | none => exact h1
    | some virtual =>
      exact SameState.trans_ (SameState.trans_ h1 (send_same cfg _ _)) (claimReplies_same cfg _ _ _ _)

/-! ## Observations while hunting -/

/-- C4: for an entry in state Hunt and a conflict-detection-shaped observation whose
target IP equals the PreviousIP of the entry, `actionRequestInHuntState` is the claim action
`actionClaimIP` (with `n = 0` and the error of the claim action), and the table is unchanged:
the entry stays in Hunt with the same IP and PreviousIP, whatever the sends return. -/
theorem actionRequestInHuntState_resist (cfg : Config) (w : World) (client : Nat) (e : ARPEntry)
    (senderIP targetIP : IP)
    (he : w.table.entry client = some e) (hst : e.State = ARPStateHunt)
    (hacd : senderIP = IPv4zero ∨ senderIP = targetIP) (ht : targetIP = e.PreviousIP) :
    actionRequestInHuntState cfg w client senderIP targetIP
        = ((actionClaimIP cfg w client).1, 0, (actionClaimIP cfg w client).2)
      ∧ (actionRequestInHuntState cfg w client senderIP targetIP).1.table = w.table
      ∧ (actionRequestInHuntState cfg w client senderIP targetIP).1.table.entry client = some e
      ∧ ((actionRequestInHuntState cfg w client senderIP targetIP).1.table.entry client).map
          (fun x => x.State) = some ARPStateHunt := by
  have hshape : (!IP.Equal senderIP IPv4zero && !IP.Equal senderIP targetIP) = false := by
    rcases hacd with h | h <;> simp [IP.Equal, h]
  have heq : (!IP.Equal targetIP e.PreviousIP) = false := by simp [IP.Equal, ht]
  have hcall : actionRequestInHuntState cfg w client senderIP targetIP
      = ((actionClaimIP cfg w client).1, 0, (actionClaimIP cfg w client).2) := by
    unfold actionRequestInHuntState
    simp [he, hshape, heq]
  have hsame := (actionClaimIP_same cfg w client).1
  have hentry : (actionRequestInHuntState cfg w client senderIP targetIP).1.table.entry client
      = some e := by
    rw [hcall]
    show (actionClaimIP cfg w client).1.table.entry client = some e
    rw [hsame]
    exact he
  refine ⟨hcall, ?_, hentry, ?_⟩
  · rw [hcall]
    exact hsame
  · rw [hentry]
    simp [hst]

/-- Witness of C4: the hunted client of the scenario is seen asking for 192.168.1.50. -/
theorem actionRequestInHuntState_resist_witness :
    actionRequestInHuntState cfgEx wHunt 0 (some ip50) (some ip50)
        = ((actionClaimIP cfgEx wHunt 0).1, 0, (actionClaimIP cfgEx wHunt 0).2)
      ∧ (actionRequestInHuntState cfgEx wHunt 0 (some ip50) (some ip50)).1.table = wHunt.table
      ∧ (actionRequestInHuntState cfgEx wHunt 0 (some ip50) (some ip50)).1.table.entry 0
          = some { MAC := macA, IP := IPv4zero, PreviousIP := some ip50,
                   State := ARPStateHunt, Online := true }
      ∧ ((actionRequestInHuntState cfgEx wHunt 0 (some ip50) (some ip50)).1.table.entry 0).map
          (fun x => x.State) = some ARPStateHunt :=
  actionRequestInHuntState_resist cfgEx wHunt 0
    { MAC := macA, IP := IPv4zero, PreviousIP := some ip50, State := ARPStateHunt, Online := true }
    (some ip50) (some ip50) (by decide) rfl (Or.inr rfl) rfl

/-! ## The invariant of hunted entries -/

theorem mem_set_cases {t : Table} {i : Nat} {x s : Option ARPEntry} (h : s ∈ t.set i x) :
    s ∈ t ∨ s = x :=
  List.mem_or_eq_of_mem_set h

theorem HuntInv_set {t : Table} (i : Nat) (x : Option ARPEntry) (h : HuntInv t)
    (hx : ∀ e, x = some e → HuntOk e) : HuntInv (t.set i x) := by
  intro e he
  rcases mem_set_cases he with h1 | h1
  · exact h e h1
  · exact hx e h1.symm

theorem HuntInv_append {t : Table} (x : Option ARPEntry) (h : HuntInv t)
    (hx : ∀ e, x = some e → HuntOk e) : HuntInv (t ++ [x]) := by
  intro e he
  rcases List.mem_append.mp he with h1 | h1
  · exact h e h1
  · exact hx e (List.mem_singleton.mp h1).symm

theorem HuntOk_of_not_hunt {e : ARPEntry} (h : e.State ≠ ARPStateHunt) : HuntOk e :=
  fun hs => absurd hs h

theorem actionUpdateClient_inv (t : Table) (client : Nat) (mac : HardwareAddr) (ip : IP)
    (h : HuntInv t) (hc : ∀ cl, t.entry client = some cl → cl.State ≠ ARPStateHunt) :
    HuntInv (actionUpdateClient t client mac ip).1 := by
  unfold actionUpdateClient
  cases he : t.entry client with
  | none => exact h
  | some cl =>
    simp only []
    split
    · exact h
    · apply HuntInv_set _ _ h
      intro e hx
      cases hx
      exact HuntOk_of_not_hunt (hc cl he)

theorem deleteVirtualMAC_inv (t : Table) (ip : IP) (h : HuntInv t) :
    HuntInv (deleteVirtualMAC t ip) := by
  unfold deleteVirtualMAC
  split
  · exact h
  · exact HuntInv_set _ _ h (fun e hx => by cases hx)

theorem entry_set_self {t : Table} {i : Nat} {x : Option ARPEntry} (h : i < t.length) :
    Table.entry (t.set i x) i = x := by
  unfold Table.entry
  simp [h]

theorem ARPForceIPChange_inv (w : World) (m : HardwareAddr) (a : IPv4) (rnd : Option Buf6)
    (h : HuntInv w.table) : HuntInv (ARPForceIPChange w m (some a) rnd).1.table := by
  unfold ARPForceIPChange
  cases hfind : ARPFindMAC w.table (HardwareAddr.String m) with
  | none => exact h
  | some client =>
    simp only []
    cases he : w.table.entry client with
    | none => exact h
    | some cl =>
      simp only []
      by_cases hst : cl.State = ARPStateHunt
      · rw [if_pos hst]
        exact h
      · rw [if_neg hst]
        by_cases hip : (IP.Equal cl.IP (some a) == false || IP.Equal cl.IP IPv4zero) = true
        · rw [if_pos hip]
          exact h
        · rw [if_neg hip]
          simp only [arpTableAppend]
          have hipa : cl.IP = some a ∧ cl.IP ≠ IPv4zero := by
            simpa [IP.Equal] using hip
          apply HuntInv_set
          · apply HuntInv_append _ h
            intro e hx
            cases hx
            exact HuntOk_of_not_hunt (by simp)
          · intro e hx
            cases hx
            intro _
            refine ⟨rfl, a, ?_, ?_⟩
            · show IP.To4 (ParseIP (IP.String cl.IP)) = some a
              rw [hipa.1]
              exact ParseIP_String a
            · rw [← hipa.1]
              exact hipa.2

theorem actionRequestInHuntState_inv (cfg : Config) (w : World) (client : Nat)
    (senderIP targetIP : IP) (h : HuntInv w.table) :
    HuntInv (actionRequestInHuntState cfg w client senderIP targetIP).1.table := by
  unfold actionRequestInHuntState
  cases he : w.table.entry client with
  | none => exact h
  | some cl =>
    simp only []
    split
    · exact h
    · split
      · have hlt := entry_lt he
        apply actionUpdateClient_inv
        · exact HuntInv_set _ _ h (fun e hx => by cases hx; exact HuntOk_of_not_hunt (by simp))
        · intro cl1 h1
          rw [entry_set_self hlt] at h1
          cases h1
          simp
      · show HuntInv (actionClaimIP cfg w client).1.table
        rw [(actionClaimIP_same cfg w client).1]
        exact h

theorem ARPIPChanged_inv (cfg : Config) (w : World) (m : HardwareAddr) (ip : IP)
    (h : HuntInv w.table) : HuntInv (ARPIPChanged cfg w m ip).table := by
  unfold ARPIPChanged
  cases hfind : ARPFindMAC w.table (HardwareAddr.String m) with
  | none =>
    simp only [arpTableAppend]
    exact HuntInv_append _ h (fun e hx => by cases hx; exact HuntOk_of_not_hunt (by simp))
  | some client =>
    simp only []
    cases he : w.table.entry client with
    | none => exact h
    | some cl =>
      simp only []
      by_cases hst : cl.State = ARPStateHunt
      · rw [if_pos hst]
        exact actionRequestInHuntState_inv cfg w client ip ip h
      · rw [if_neg hst]
        have hu := actionUpdateClient_inv w.table client cl.MAC ip h
          (fun cl1 h1 => by rw [he] at h1; cases h1; exact hst)
        split
        · split
          · exact hu
          · exact hu
        · exact hu

theorem actionStopHunt_inv (w : World) (client : Nat) (h : HuntInv w.table) :
    HuntInv (actionStopHunt w client).table := by
  unfold actionStopHunt
  cases he : w.table.entry client with
  | none => exact h
  | some cl =>
    simp only []
    have hd := deleteVirtualMAC_inv w.table cl.PreviousIP h
    split
    · exact hd
    · split
      · exact HuntInv_set _ _ hd (fun e hx => by cases hx; exact HuntOk_of_not_hunt (by simp))
      · exact hd

theorem step_inv (cfg : Config) (w : World) (op : Op) (hop : Op.addressGiven op = true)
    (h : HuntInv w.table) : HuntInv (step cfg w op).table := by
  cases op with
  | forceHunt m a rnd =>
    cases a with
    | none => simp [Op.addressGiven] at hop
    | some a => exact ARPForceIPChange_inv w m a rnd h
  | ipChanged m a => exact ARPIPChanged_inv cfg w m a h
  | requestInHunt client s t => exact actionRequestInHuntState_inv cfg w client s t h
  | stopHunt client => exact actionStopHunt_inv w client h

theorem run_inv (cfg : Config) (ops : List Op) (w : World)
    (hops : ∀ op, op ∈ ops → Op.addressGiven op = true) (h : HuntInv w.table) :
    HuntInv (run cfg w ops).table := by
  induction ops generalizing w with
  | nil => exact h
  | cons op ops ih =>
    exact ih (step cfg w op) (fun o ho => hops o (List.mem_cons_of_mem _ ho))
      (step_inv cfg w op (hops op (List.mem_cons_self _ _)) h)

/-- C5, as the code has it: in every table reached from a table with no Hunt entries by
force-hunt, IP-change notification, hunt-state observation and stop-hunt, every force-hunt
being called with an address (not with the nil slice), every entry in state Hunt has
IP = 0.0.0.0 and a non-zero PreviousIP.  The addresses of the other operations are
arbitrary, nil included. -/
theorem hunt_entry_ip_zero_previous_nonzero (cfg : Config) (w : World) (ops : List Op)
    (h0 : ∀ e, some e ∈ w.table → e.State ≠ ARPStateHunt)
    (hops : ∀ op, op ∈ ops → Op.addressGiven op = true) :
    ∀ e, some e ∈ (run cfg w ops).table → e.State = ARPStateHunt →
      e.IP = IPv4zero ∧ ∃ p : IPv4, e.PreviousIP = some p ∧ (some p : IP) ≠ IPv4zero :=
  run_inv cfg ops w hops (fun e he => HuntOk_of_not_hunt (h0 e he))

/-- Witness of C5: the client of the scenario is force-hunted, observed (once with the nil
address) and stopped, and a second client is reported and force-hunted; the second client
is the hunted entry. -/
theorem hunt_entry_ip_zero_previous_nonzero_witness :
    secondHunted.IP = IPv4zero
      ∧ ∃ p : IPv4, secondHunted.PreviousIP = some p ∧ (some p : IP) ≠ IPv4zero :=
  hunt_entry_ip_zero_previous_nonzero cfgEx wNormal
    [Op.forceHunt macA (some ip50) rndEx, Op.requestInHunt 0 (some ip50) (some ip50),
      Op.requestInHunt 0 none (some ip50), Op.ipChanged macB (some ip99),
      Op.forceHunt macB (some ip99) rndEx, Op.stopHunt 0]
    (by
      intro e he
      simp only [wNormal, List.mem_singleton, Option.some.injEq] at he
      subst he
      decide)
    (by decide)
    secondHunted (by decide) rfl

/-- C5 fails as stated: from the empty table, a client is reported with the nil address
and force-hunted with the nil address.  The force-hunt returns no error (nil equals nil and
is not 0.0.0.0), and the entry is in state Hunt with PreviousIP nil, the result of
`ParseIP("<nil>").To4()`: it has no non-zero PreviousIP. -/
theorem hunt_entry_with_nil_previous_ip :
    wEmpty.table = []
      ∧ (ARPForceIPChange (run cfgEx wEmpty [Op.ipChanged macA none]) macA none rndEx).2 = none
      ∧ (run cfgEx wEmpty [Op.ipChanged macA none, Op.forceHunt macA none rndEx]).table.entry 0
          = some { MAC := macA, IP := IPv4zero, PreviousIP := none,
                   State := ARPStateHunt, Online := false } := by
  decide

/-! ## Errors of the poisoning actions -/

theorem ARPSpoof_send_error (cfg : Config) (w : World) (client : Nat) (cl : ARPEntry)
    (he : w.table.entry client = some cl) (k : Nat) (hk : k < 3)
    (hprev : ∀ j, j < k → cfg.sendFails (w.sent.length + j) = false)
    (hfail : cfg.sendFails (w.sent.length + k) = true) :
    ARPSpoof cfg w client
      = ({ w with sent := w.sent ++ (spoofSends cfg cl).take (k + 1) },
          some (Err.send (w.sent.length + k))) := by
  unfold ARPSpoof
  simp only [he, send, spoofReplies, spoofSends, poisonedIP]
  interval_cases k
  · simp at hfail
    simp [hfail]
  · have h0 := hprev 0 (by omega)
    simp at h0
    simp [h0, hfail]
  · have h0 := hprev 0 (by omega)
    have h1 := hprev 1 (by omega)
    simp at h0
    simp [h0, h1, hfail]

theorem ARPSpoof_no_error (cfg : Config) (w : World) (client : Nat) (cl : ARPEntry)
    (he : w.table.entry client = some cl) (h : (ARPSpoof cfg w client).2 = none) :
    ∀ k, k < 3 → cfg.sendFails (w.sent.length + k) = false := by
  intro k hk
  by_contra hne
  have hfail : cfg.sendFails (w.sent.length + k) = true := by simpa using hne
  -- the first failing send among the three
  have : ∃ k0, k0 < 3 ∧ (∀ j, j < k0 → cfg.sendFails (w.sent.length + j) = false)
      ∧ cfg.sendFails (w.sent.length + k0) = true := by
    by_cases h0 : cfg.sendFails (w.sent.length + 0) = true
    · exact ⟨0, by omega, fun j hj => absurd hj (by omega), h0⟩
    · by_cases h1 : cfg.sendFails (w.sent.length + 1) = true
      · refine ⟨1, by omega, fun j hj => ?_, h1⟩
        have : j = 0 := by omega
        subst this
        simpa using h0
      · refine ⟨2, by omega, fun j hj => ?_, ?_⟩
        · have : j = 0 ∨ j = 1 := by omega
          rcases this with rfl | rfl
          · simpa using h0
          · simpa using h1
        · have : k = 0 ∨ k = 1 ∨ k = 2 := by omega
          rcases this with rfl | rfl | rfl
          · exact absurd hfail h0
          · exact absurd hfail h1
          · exact hfail
  obtain ⟨k0, hk0, hp, hf⟩ := this
  rw [ARPSpoof_send_error cfg w client cl he k0 hk0 hp hf] at h
  simp at h

theorem actionClaimIP_send_error (cfg : Config) (w : World) (client : Nat) (cl virtual : ARPEntry)
    (he : w.table.entry client = some cl)
    (hv : findVirtual w.table (poisonedIP cl) = some virtual) (k : Nat) (hk : k < 3)
    (hprev : ∀ j, j < k →
      cfg.sendFails ((ARPSpoof cfg w client).1.sent.length + 2 * j + 2) = false)
    (hfail : cfg.sendFails ((ARPSpoof cfg w client).1.sent.length + 2 * k + 2) = true) :
    actionClaimIP cfg w client
      = ({ (ARPSpoof cfg w client).1 with
            sent := (ARPSpoof cfg w client).1.sent ++ (claimSends cl virtual).take (2 * k + 3) },
          some (Err.send ((ARPSpoof cfg w client).1.sent.length + 2 * k + 2))) := by
  have htab : (ARPSpoof cfg w client).1.table = w.table := (ARPSpoof_same cfg w client).1
  unfold actionClaimIP
  simp only [he]
  have hv1 : findVirtual (ARPSpoof cfg w client).1.table
      (if cl.State = ARPStateHunt then cl.PreviousIP else cl.IP) = some virtual := by
    rw [htab]
    exact hv
  simp only [hv1]
  generalize (ARPSpoof cfg w client).1 = w1 at hprev hfail ⊢
  simp only [send, claimReplies, claimSends]
  interval_cases k
  · simp at hfail
    simp [hfail, Nat.add_assoc]
  · have h0 := hprev 0 (by omega)
    simp at h0 hfail
    simp [h0, hfail, Nat.add_assoc]
  · have h0 := hprev 0 (by omega)
    have h1 := hprev 1 (by omega)
    simp at h0 h1 hfail
    simp [h0, h1, hfail, Nat.add_assoc]

theorem actionClaimIP_no_error (cfg : Config) (w : World) (client : Nat) (cl virtual : ARPEntry)
    (he : w.table.entry client = some cl)
    (hv : findVirtual w.table (poisonedIP cl) = some virtual)
    (h : (actionClaimIP cfg w client).2 = none) :
    ∀ k, k < 3 → cfg.sendFails ((ARPSpoof cfg w client).1.sent.length + 2 * k + 2) = false := by
  intro k hk
  by_contra hne
  have hfail : cfg.sendFails ((ARPSpoof cfg w client).1.sent.length + 2 * k + 2) = true := by
    simpa using hne
  have : ∃ k0, k0 < 3
      ∧ (∀ j, j < k0 → cfg.sendFails ((ARPSpoof cfg w client).1.sent.length + 2 * j + 2) = false)
      ∧ cfg.sendFails ((ARPSpoof cfg w client).1.sent.length + 2 * k0 + 2) = true := by
    by_cases h0 : cfg.sendFails ((ARPSpoof cfg w client).1.sent.length + 2 * 0 + 2) = true
    · exact ⟨0, by omega, fun j hj => absurd hj (by omega), h0⟩
    · by_cases h1 : cfg.sendFails ((ARPSpoof cfg w client).1.sent.length + 2 * 1 + 2) = true
      · refine ⟨1, by omega, fun j hj => ?_, h1⟩
        have : j = 0 := by omega
        subst this
        simpa using h0
      · refine ⟨2, by omega, fun j hj => ?_, ?_⟩
        · have : j = 0 ∨ j = 1 := by omega
          rcases this with rfl | rfl
          · simpa using h0
          · simpa using h1
        · have : k = 0 ∨ k = 1 ∨ k = 2 := by omega
          rcases this with rfl | rfl | rfl
          · exact absurd hfail h0
          · exact absurd hfail h1
          · exact hfail
  obtain ⟨k0, hk0, hp, hf⟩ := this
  rw [actionClaimIP_send_error cfg w client cl virtual he hv k0 hk0 hp hf] at h
  simp at h

/-- C9, as the code has it: in `ARPSpoof`, if the unicast announcement or one of the two
gratuitous replies fails (send `k` of the call, the earlier ones having succeeded), no
further packet is sent and that error is returned, and `ARPSpoof` returns no error only if
these three sends succeeded.  In `actionClaimIP`, with the virtual host in the table, if
the broadcast reply of round `k` fails (the earlier broadcast replies having succeeded),
no further packet is sent and that error is returned, and `actionClaimIP` returns no error
only if its three broadcast replies succeeded. -/
theorem poisoning_send_errors (cfg : Config) (w : World) (client : Nat) (cl : ARPEntry)
    (he : w.table.entry client = some cl) :
    (∀ k, k < 3 → (∀ j, j < k → cfg.sendFails (w.sent.length + j) = false) →
        cfg.sendFails (w.sent.length + k) = true →
        ARPSpoof cfg w client
          = ({ w with sent := w.sent ++ (spoofSends cfg cl).take (k + 1) },
              some (Err.send (w.sent.length + k))))
      ∧ ((ARPSpoof cfg w client).2 = none →
          ∀ k, k < 3 → cfg.sendFails (w.sent.length + k) = false)
      ∧ (∀ virtual, findVirtual w.table (poisonedIP cl) = some virtual →
          (∀ k, k < 3 →
            (∀ j, j < k →
              cfg.sendFails ((ARPSpoof cfg w client).1.sent.length + 2 * j + 2) = false) →
            cfg.sendFails ((ARPSpoof cfg w client).1.sent.length + 2 * k + 2) = true →
            actionClaimIP cfg w client
              = ({ (ARPSpoof cfg w client).1 with
                    sent := (ARPSpoof cfg w client).1.sent
                      ++ (claimSends cl virtual).take (2 * k + 3) },
                  some (Err.send ((ARPSpoof cfg w client).1.sent.length + 2 * k + 2))))
          ∧ ((actionClaimIP cfg w client).2 = none →
              ∀ k, k < 3 →
                cfg.sendFails ((ARPSpoof cfg w client).1.sent.length + 2 * k + 2) = false)) :=
  ⟨fun k hk hp hf => ARPSpoof_send_error cfg w client cl he k hk hp hf,
   fun h => ARPSpoof_no_error cfg w client cl he h,
   fun virtual hv =>
    ⟨fun k hk hp hf => actionClaimIP_send_error cfg w client cl virtual he hv k hk hp hf,
     fun h => actionClaimIP_no_error cfg w client cl virtual he hv h⟩⟩

/-- Witness of C9: the first gratuitous reply of `ARPSpoof` fails; two packets have been
sent and the error of the second is returned. -/
theorem poisoning_send_errors_witness :
    ARPSpoof (cfgFailAt 1) wHunt 0
      = ({ wHunt with sent := wHunt.sent ++ (spoofSends (cfgFailAt 1) clientHunted).take 2 },
          some (Err.send 1)) :=
  (poisoning_send_errors (cfgFailAt 1) wHunt 0 clientHunted (by decide)).1 1 (by decide)
    (by
      intro j hj
      have : j = 0 := by omega
      subst this
      decide)
    (by decide)

/-- C9 fails as stated: when the first send of the nested `ARPSpoof` (send 0) fails,
`actionClaimIP` sends seven more packets and returns no error; and when the broadcast
announcement of `ARPSpoof` (send 3) fails, `ARPSpoof` returns no error. -/
theorem claimIP_continues_after_failed_send :
    (cfgFailAt 0).sendFails 0 = true
      ∧ (actionClaimIP (cfgFailAt 0) wHunt 0).2 = none
      ∧ (actionClaimIP (cfgFailAt 0) wHunt 0).1.sent.length = 8
      ∧ (cfgFailAt 3).sendFails 3 = true
      ∧ (ARPSpoof (cfgFailAt 3) wHunt 0).1.sent.length = 4
      ∧ (ARPSpoof (cfgFailAt 3) wHunt 0).2 = none := by
  decide

/-! ## Leaving the hunt -/

/-- C3, the code at the scenario: the hunted client (PreviousIP 192.168.1.50) is seen
announcing 192.168.1.99.  Its entry becomes Normal with IP 192.168.1.99, but PreviousIP
stays 192.168.1.50 and the virtual host for 192.168.1.50 stays in the table. -/
theorem escape_keeps_previous_ip_and_virtual_host :
    wHunt.table = [some clientHunted, some virtualEx]
      ∧ (actionRequestInHuntState cfgEx wHunt 0 (some ip99) (some ip99)).1.table
          = [some { MAC := macA, IP := some ip99, PreviousIP := some ip50,
                    State := ARPStateNormal, Online := true },
             some virtualEx]
      ∧ (ARPIPChanged cfgEx wHunt macA (some ip99)).table
          = [some { MAC := macA, IP := some ip99, PreviousIP := some ip50,
                    State := ARPStateNormal, Online := true },
             some virtualEx] := by
  decide

/-- C6, the code at a failing run: the client of the scenario is force-hunted and then an
IP-change notification with the address 0.0.0.0 arrives.  The entry is Normal, yet has
IP = 0.0.0.0 and the non-zero PreviousIP 192.168.1.50. -/
theorem normal_entry_with_zero_ip_and_previous_ip :
    (∀ e, some e ∈ wNormal.table → e.State = ARPStateNormal ∧ e.PreviousIP = IPv4zero)
      ∧ (run cfgEx wNormal
            [Op.forceHunt macA (some ip50) rndEx, Op.ipChanged macA IPv4zero]).table.entry 0
          = some { MAC := macA, IP := IPv4zero, PreviousIP := some ip50,
                   State := ARPStateNormal, Online := true } := by
  constructor
  · intro e he
    simp only [wNormal, List.mem_singleton, Option.some.injEq] at he
    subst he
    exact ⟨rfl, rfl⟩
  · decide

/-! ## Virtual hosts after a force-hunt -/

theorem countVirtual_append_virtual (t : Table) (v : ARPEntry) (ip : IP)
    (hs : v.State = ARPStateVirtualHost) (hip : v.IP = ip) :
    countVirtual (t ++ [some v]) ip = countVirtual t ip + 1 := by
  simp [countVirtual, List.countP_append, hs, hip]

theorem countVirtual_set_of_zero (t : Table) (i : Nat) (x : ARPEntry) (ip : IP)
    (h0 : countVirtual t ip = 0) (hx : x.State ≠ ARPStateVirtualHost) :
    countVirtual (t.set i (some x)) ip = 0 := by
  unfold countVirtual at h0 ⊢
  rw [List.countP_eq_zero] at h0 ⊢
  intro s hs
  rcases mem_set_cases hs with h1 | h1
  · exact h0 s h1
  · subst h1
    simp [hx]

/-- C7, as the code has it: immediately after a successful force-hunt of a client that
held IP `a`, the table contains at least one entry with State = VirtualHost and IP = `a`,
and exactly one if it contained none before the call. -/
theorem ARPForceIPChange_virtual_host_count (w : World) (m : HardwareAddr) (a : IPv4)
    (rnd : Option Buf6) (hok : (ARPForceIPChange w m (some a) rnd).2 = none) :
    1 ≤ countVirtual (ARPForceIPChange w m (some a) rnd).1.table (some a)
      ∧ (countVirtual w.table (some a) = 0 →
          countVirtual (ARPForceIPChange w m (some a) rnd).1.table (some a) = 1) := by
  unfold ARPForceIPChange at hok ⊢
  cases hfind : ARPFindMAC w.table (HardwareAddr.String m) with
  | none => simp [hfind] at hok
  | some client =>
    simp only [hfind] at hok ⊢
    cases he : w.table.entry client with
    | none => simp [he] at hok
    | some cl =>
      simp only [he] at hok ⊢
      by_cases hst : cl.State = ARPStateHunt
      · simp [hst] at hok
      · rw [if_neg hst] at hok ⊢
        by_cases hip : (IP.Equal cl.IP (some a) == false || IP.Equal cl.IP IPv4zero) = true
        · rw [if_pos hip] at hok
          simp at hok
        · rw [if_neg hip]
          have hlt := entry_lt he
          simp only [arpTableAppend]
          rw [List.set_append_left _ _ hlt]
          constructor
          · rw [countVirtual_append_virtual _ _ _ rfl rfl]
            omega
          · intro h0
            rw [countVirtual_append_virtual _ _ _ rfl rfl,
              countVirtual_set_of_zero _ _ _ _ h0 (by simp)]

/-- Witness of C7: after the force-hunt of the scenario there is exactly one virtual host
for 192.168.1.50. -/
theorem ARPForceIPChange_virtual_host_count_witness :
    countVirtual (ARPForceIPChange wNormal macA (some ip50) rndEx).1.table (some ip50) = 1 :=
  (ARPForceIPChange_virtual_host_count wNormal macA ip50 rndEx (by decide)).2 (by decide)

/-- C7 fails as stated: from the empty table, two clients are reported at 192.168.1.50 and
the first is force-hunted; the force-hunt of the second succeeds, and the table then has
two entries with State = VirtualHost and IP = 192.168.1.50. -/
theorem two_virtual_hosts_for_one_ip :
    wEmpty.table = []
      ∧ (ARPForceIPChange wTwoClients macB (some ip50) rndEx).2 = none
      ∧ countVirtual (ARPForceIPChange wTwoClients macB (some ip50) rndEx).1.table (some ip50)
          = 2 := by
  decide

/-! ## The claim loop -/

theorem huntLooks_le (env : Nat → Obs) (n k : Nat) : huntLooks env n k ≤ n := by
  induction n generalizing k with
  | zero => simp [huntLooks]
  | succ n ih =>
    rw [huntLooks]
    split
    · have := ih (k + 1)
      omega
    · omega

theorem huntLooks_hunt (env : Nat → Obs) (n k j : Nat) (hj : j < huntLooks env n k) :
    (env (k + j)).State = ARPStateHunt := by
  induction n generalizing k j with
  | zero => simp [huntLooks] at hj
  | succ n ih =>
    rw [huntLooks] at hj
    split at hj
    · rename_i hk
      cases j with
      | zero => simpa using hk
      | succ j =>
        have := ih (k + 1) j (by omega)
        rwa [Nat.add_assoc, Nat.add_comm 1 j] at this
    · omega

theorem huntLooks_stop (env : Nat → Obs) (n k : Nat) (h : huntLooks env n k < n) :
    (env (k + huntLooks env n k)).State ≠ ARPStateHunt := by
  induction n generalizing k with
  | zero => omega
  | succ n ih =>
    rw [huntLooks] at h ⊢
    split
    · rename_i hk
      rw [if_pos hk] at h
      have := ih (k + 1) (by omega)
      rwa [Nat.add_assoc, Nat.add_comm 1] at this
    · rename_i hk
      simpa using hk

theorem claimLoop_eq (env : Nat → Obs) (n k : Nat) :
    claimLoop env n k
      = (claimRounds (huntLooks env n k), k + min (huntLooks env n k + 1) n,
          decide (huntLooks env n k < n)) := by
  induction n generalizing k with
  | zero => simp [claimLoop, huntLooks, claimRounds]
  | succ n ih =>
    rw [claimLoop, huntLooks]
    by_cases hk : (env k).State = ARPStateHunt
    · have hle := huntLooks_le env n (k + 1)
      simp only [hk, ne_eq, not_true_eq_false, if_false, if_true, ih (k + 1), claimRounds]
      refine Prod.ext rfl (Prod.ext ?_ ?_)
      · simp only
        omega
      · simp
    · simp [hk, claimRounds]

theorem count_claimRounds (c : Nat) :
    (claimRounds c).count Event.claimIP = c ∧ (claimRounds c).count Event.tranChannel = 0 := by
  induction c with
  | zero => simp [claimRounds]
  | succ c ih => simp [claimRounds, ih.1, ih.2]

theorem spoofBurst_no_tran (env : Nat → Obs) (n k : Nat) :
    (spoofBurst env n k).1.count Event.tranChannel = 0 := by
  induction n generalizing k with
  | zero => simp [spoofBurst]
  | succ n ih =>
    rw [spoofBurst]
    split
    · simp
    · simp [ih (k + 1)]

theorem spoofLoopIter_no_tran (env : Nat → Obs) (fuel k tryagain : Nat) :
    (spoofLoopIter env fuel k tryagain).1.count Event.tranChannel = 0 := by
  induction fuel generalizing k tryagain with
  | zero => simp [spoofLoopIter]
  | succ fuel ih =>
    rw [spoofLoopIter]
    split
    · simp
    · split
      · split
        · have hb := spoofBurst_no_tran env 20 (k + 1)
          split
          · rename_i es k1 heq
            rw [heq] at hb
            simpa using hb
          · rename_i es k1 heq
            rw [heq] at hb
            simp only [List.count_append]
            rw [ih]
            simpa using hb
        · simp [ih]
      · simp [ih]

theorem spoofLoop_no_tran (env : Nat → Obs) (fuel k : Nat) :
    (spoofLoop env fuel k).1.count Event.tranChannel = 0 :=
  spoofLoopIter_no_tran env fuel (k + 1) _

theorem huntTask_left (cfg : Config) (env : Nat → Obs) (fuel : Nat)
    (h : huntLooks env 20 0 < 20) :
    huntTask cfg env fuel = (claimRounds (huntLooks env 20 0) ++ [Event.huntEnd], true) := by
  unfold huntTask
  rw [claimLoop_eq]
  simp [h]

theorem huntTask_exhausted (cfg : Config) (env : Nat → Obs) (fuel : Nat)
    (h : huntLooks env 20 0 = 20) :
    huntTask cfg env fuel
      = (claimRounds 20 ++ (if cfg.hasTranChannel then [Event.tranChannel] else [])
            ++ [Event.huntFailed] ++ (spoofLoop env fuel 20).1
            ++ (if (spoofLoop env fuel 20).2
                then [Event.huntEnd] else []),
          (spoofLoop env fuel 20).2) := by
  unfold huntTask
  rw [claimLoop_eq, h]
  simp only [Nat.lt_irrefl, decide_False, Nat.zero_add, Nat.min_def]
  simp only [show ¬ (20 + 1 ≤ 20) by omega, if_false]
  cases hs : spoofLoop env fuel 20 with
  | mk es1 ret =>
    cases ret <;> simp

/-- C10, as the code has it: whatever State the entry shows at the looks of the loop, the
claim loop calls ClaimIP once for every leading look that shows Hunt, at most 20 times, and
stops at the first look that shows another state.  The exhaustion notification is sent
exactly once if all 20 looks showed Hunt and the channel `tranChannel` is configured, and
never otherwise; after the 20 attempts the goroutine goes on into the spoof loop. -/
theorem huntTask_claims_and_notification (cfg : Config) (env : Nat → Obs) (fuel : Nat) :
    huntLooks env 20 0 ≤ 20
      ∧ (∀ j, j < huntLooks env 20 0 → (env j).State = ARPStateHunt)
      ∧ (huntLooks env 20 0 < 20 → (env (huntLooks env 20 0)).State ≠ ARPStateHunt)
      ∧ (claimLoop env 20 0).1 = claimRounds (huntLooks env 20 0)
      ∧ (claimLoop env 20 0).1.count Event.claimIP = huntLooks env 20 0
      ∧ (huntTask cfg env fuel).1.count Event.tranChannel
          = (if huntLooks env 20 0 = 20 ∧ cfg.hasTranChannel = true then 1 else 0)
      ∧ (huntLooks env 20 0 < 20 →
          huntTask cfg env fuel = (claimRounds (huntLooks env 20 0) ++ [Event.huntEnd], true))
      ∧ (huntLooks env 20 0 = 20 →
          (huntTask cfg env fuel).1
            = claimRounds 20 ++ (if cfg.hasTranChannel then [Event.tranChannel] else [])
                ++ [Event.huntFailed] ++ (spoofLoop env fuel 20).1
                ++ (if (spoofLoop env fuel 20).2
                    then [Event.huntEnd] else [])) := by
  have hle := huntLooks_le env 20 0
  have hcl : (claimLoop env 20 0).1 = claimRounds (huntLooks env 20 0) := by
    rw [claimLoop_eq]
  refine ⟨hle, ?_, ?_, hcl, ?_, ?_, huntTask_left cfg env fuel, ?_⟩
  · intro j hj
    have := huntLooks_hunt env 20 0 j hj
    simpa using this
  · intro h
    have := huntLooks_stop env 20 0 h
    simpa using this
  · rw [hcl]
    exact (count_claimRounds _).1
  · by_cases h : huntLooks env 20 0 = 20
    · rw [huntTask_exhausted cfg env fuel h]
      have h1 := (count_claimRounds 20).2
      have h2 := spoofLoop_no_tran env fuel 20
      simp only [List.count_append, h1, h2, h, true_and]
      cases cfg.hasTranChannel <;>
        cases (spoofLoop env fuel 20).2 <;> simp
    · rw [huntTask_left cfg env fuel (by omega)]
      simp [List.count_append, (count_claimRounds _).2, h]
  · intro h
    rw [huntTask_exhausted cfg env fuel h]

/-- C10 fails as stated: with no channel `tranChannel` configured, all 20 attempts complete
with the client still in Hunt (20 calls of ClaimIP by the claim loop) and no exhaustion
notification is sent. -/
theorem no_notification_without_channel :
    huntLooks envHunt 20 0 = 20
      ∧ (claimLoop envHunt 20 0).1.count Event.claimIP = 20
      ∧ (huntTask cfgNoTran envHunt 3).1.count Event.tranChannel = 0 := by
  decide

/-- The State is not read between the last attempt and the notification: when the client
leaves the hunt during the twentieth attempt, the notification is still sent, and the spoof
loop ends at its first look. -/
theorem notification_after_late_escape :
    huntLooks envLate 20 0 = 20
      ∧ (envLate 20).State = ARPStateNormal
      ∧ huntTask cfgEx envLate 3
          = (claimRounds 20 ++ [Event.tranChannel, Event.huntFailed,
              Event.spoofLoopTerminated, Event.huntEnd], true) := by
  decide

/-! ## What the escape branch does -/

/-- The escape branch of `actionRequestInHuntState` in general: for a conflict-detection
shaped observation whose target differs from PreviousIP, the entry gets State = Normal and
IP = target; its PreviousIP and every other slot of the table are as before. -/
theorem actionRequestInHuntState_escape (cfg : Config) (w : World) (client : Nat) (e : ARPEntry)
    (senderIP targetIP : IP) (he : w.table.entry client = some e)
    (hacd : senderIP = IPv4zero ∨ senderIP = targetIP) (hne : targetIP ≠ e.PreviousIP) :
    (actionRequestInHuntState cfg w client senderIP targetIP).1.table
      = w.table.set client (some { e with State := ARPStateNormal, IP := targetIP }) := by
  have hshape : (!IP.Equal senderIP IPv4zero && !IP.Equal senderIP targetIP) = false := by
    rcases hacd with h | h <;> simp [IP.Equal, h]
  have hdiff : (!IP.Equal targetIP e.PreviousIP) = true := by simp [IP.Equal, hne]
  have hlt := entry_lt he
  unfold actionRequestInHuntState
  simp only [he, hshape, hdiff, if_true, Bool.false_eq_true, if_false]
  unfold actionUpdateClient
  rw [entry_set_self hlt]
  simp only []
  by_cases hip : e.IP = targetIP
  · simp [IP.Equal, hip]
  · simp [IP.Equal, hip]

end Arp
